import Mathlib

/-!
Shallow embedding of the lifecycle-orchestration core of the
Websocket-Toolkit repository (src/websocket_toolkit/src/): the message
codec (`messages.rs`), the reconnect loops (`reconnection.rs`,
`controller.rs`, `connection.rs`), frame handling on receive, send-error
propagation, and controller construction.

Bytes are modelled as `Nat` (each byte `< 256` where it matters), byte
strings as `List Nat`, durations as `Nat` seconds, and fallible Rust
functions returning `Result<_, E>` as `Except String _`.  A Rust payload
value of type `Vec<u8>` is modelled as `List (Fin 256)`.
-/

set_option maxHeartbeats 1000000

/-- The two wire formats of `messages.rs` (`enum MessageFormat`). -/
inductive MessageFormat where
  | Json : MessageFormat
  | Cbor : MessageFormat
deriving DecidableEq, Repr

/-- ASCII decimal digits of a byte value (`0 ≤ b ≤ 255`), as serde_json's
integer printer emits them: no sign, no leading zeros, `"0"` for zero. -/
def jsonByte (b : Fin 256) : List Nat :=
  if b.val < 10 then [48 + b.val]
  else if b.val < 100 then [48 + b.val / 10, 48 + b.val % 10]
  else [48 + b.val / 100, 48 + b.val / 10 % 10, 48 + b.val % 10]

/-- Comma-separated decimal encodings of the elements of a `Vec<u8>`,
as inside serde_json's compact array printing. -/
def jsonElemsEncode : List (Fin 256) → List Nat
  | [] => []
  | [b] => jsonByte b
  | b :: c :: rest => jsonByte b ++ 44 :: jsonElemsEncode (c :: rest)

/-- serde_json compact encoding of a `Vec<u8>`: `[` elems `]`. -/
def jsonEncode (v : List (Fin 256)) : List Nat :=
  91 :: jsonElemsEncode v ++ [93]

/-- JSON insignificant whitespace bytes: space, tab, line feed, carriage
return. -/
def isWsByte (b : Nat) : Bool :=
  b == 32 || b == 9 || b == 10 || b == 13

/-- ASCII decimal digit test. -/
def isDigit (b : Nat) : Bool :=
  48 ≤ b && b ≤ 57

/-- Numeric value of a string of ASCII decimal digits. -/
def digitsVal (ds : List Nat) : Nat :=
  ds.foldl (fun acc d => acc * 10 + (d - 48)) 0

/-- Parse one JSON unsigned integer that must fit a `u8`: longest digit
run, leading zeros rejected (JSON grammar), values above 255 rejected
(serde's `u8` range check). -/
def parseNum (input : List Nat) : Except String (Fin 256 × List Nat) :=
  let ds := input.takeWhile isDigit
  let rest := input.dropWhile isDigit
  if ds.isEmpty then .error "expected number"
  else if ds.head? == some 48 && ds.length != 1 then .error "leading zero in number"
  else
    let n := digitsVal ds
    if h : n < 256 then .ok (⟨n, h⟩, rest) else .error "integer out of range of u8"

/-- Parse the non-empty tail of a JSON array of `u8` values: a number,
then (after optional whitespace) either `,` and more elements or `]`.
`fuel` bounds the recursion; every step consumes at least one byte, so
`input.length + 1` fuel always suffices. -/
def parseElems : Nat → List Nat → Except String (List (Fin 256) × List Nat)
  | 0, _ => .error "fuel exhausted"
  | fuel + 1, input =>
    match parseNum input with
    | .error e => .error e
    | .ok (b, r) =>
      match r.dropWhile isWsByte with
      | 44 :: r2 =>
        match parseElems fuel (r2.dropWhile isWsByte) with
        | .error e => .error e
        | .ok (bs, r3) => .ok (b :: bs, r3)
      | 93 :: r2 => .ok ([b], r2)
      | _ => .error "expected comma or closing bracket"

/-- serde_json `from_slice` for `Vec<u8>`: optional leading whitespace,
a `[` ... `]` array of `u8` numbers, optional trailing whitespace, end of
input. -/
def jsonDecode (data : List Nat) : Except String (List (Fin 256)) :=
  match data.dropWhile isWsByte with
  | 91 :: r =>
    match r.dropWhile isWsByte with
    | 93 :: r2 =>
      if (r2.dropWhile isWsByte).isEmpty then .ok [] else .error "trailing characters"
    | r1 =>
      match parseElems (r1.length + 1) r1 with
      | .error e => .error e
      | .ok (v, rest) =>
        if (rest.dropWhile isWsByte).isEmpty then .ok v else .error "trailing characters"
  | _ => .error "expected array"

/-- CBOR head with the given major type and unsigned argument `n`:
immediate for `n < 24`, otherwise the 1-, 2-, 4- or 8-byte big-endian
argument forms, as serde_cbor writes them. -/
def cborHead (major n : Nat) : List Nat :=
  if n < 24 then [32 * major + n]
  else if n < 256 then [32 * major + 24, n]
  else if n < 65536 then [32 * major + 25, n / 256, n % 256]
  else if n < 4294967296 then
    [32 * major + 26, n / 16777216, n / 65536 % 256, n / 256 % 256, n % 256]
  else
    [32 * major + 27, n / 72057594037927936, n / 281474976710656 % 256,
     n / 1099511627776 % 256, n / 4294967296 % 256, n / 16777216 % 256,
     n / 65536 % 256, n / 256 % 256, n % 256]

/-- serde_cbor encoding of one `u8` element: an unsigned integer
(major type 0). -/
def cborU8 (b : Fin 256) : List Nat :=
  if b.val < 24 then [b.val] else [24, b.val]

/-- Concatenated serde_cbor encodings of array elements. -/
def cborElems : List (Fin 256) → List Nat
  | [] => []
  | b :: rest => cborU8 b ++ cborElems rest

/-- serde_cbor encoding of a `Vec<u8>`: a definite-length array
(major type 4) of unsigned integers. -/
def cborEncode (v : List (Fin 256)) : List Nat :=
  cborHead 4 v.length ++ cborElems v

/-- Read the unsigned argument selected by the additional-information
bits of a CBOR head byte. Additional values 28-31 (reserved or
indefinite length) are not produced by serde_cbor's serializer and are
rejected here. -/
def readArg (additional : Nat) (input : List Nat) : Except String (Nat × List Nat) :=
  if additional < 24 then .ok (additional, input)
  else if additional = 24 then
    match input with
    | b :: r => .ok (b, r)
    | [] => .error "unexpected end of input"
  else if additional = 25 then
    match input with
    | b1 :: b2 :: r => .ok (b1 * 256 + b2, r)
    | _ => .error "unexpected end of input"
  else if additional = 26 then
    match input with
    | b1 :: b2 :: b3 :: b4 :: r =>
      .ok (b1 * 16777216 + b2 * 65536 + b3 * 256 + b4, r)
    | _ => .error "unexpected end of input"
  else if additional = 27 then
    match input with
    | b1 :: b2 :: b3 :: b4 :: b5 :: b6 :: b7 :: b8 :: r =>
      .ok (b1 * 72057594037927936 + b2 * 281474976710656 + b3 * 1099511627776 +
           b4 * 4294967296 + b5 * 16777216 + b6 * 65536 + b7 * 256 + b8, r)
    | _ => .error "unexpected end of input"
  else .error "unsupported additional information"

/-- Read one CBOR unsigned integer that must fit a `u8`. -/
def readU8 (input : List Nat) : Except String (Fin 256 × List Nat) :=
  match input with
  | [] => .error "unexpected end of input"
  | ib :: r =>
    if ib / 32 = 0 then
      match readArg (ib % 32) r with
      | .error e => .error e
      | .ok (n, rest) =>
        if h : n < 256 then .ok (⟨n, h⟩, rest) else .error "integer out of range of u8"
    else .error "expected unsigned integer"

/-- Read `n` CBOR `u8` elements. -/
def readElems : Nat → List Nat → Except String (List (Fin 256) × List Nat)
  | 0, input => .ok ([], input)
  | n + 1, input =>
    match readU8 input with
    | .error e => .error e
    | .ok (b, r) =>
      match readElems n r with
      | .error e => .error e
      | .ok (bs, r2) => .ok (b :: bs, r2)

/-- serde_cbor `from_slice` for `Vec<u8>`: a definite-length array head
(major type 4), its elements, end of input. -/
def cborDecode (data : List Nat) : Except String (List (Fin 256)) :=
  match data with
  | [] => .error "unexpected end of input"
  | ib :: r =>
    if ib / 32 = 4 then
      match readArg (ib % 32) r with
      | .error e => .error e
      | .ok (len, rest) =>
        match readElems len rest with
        | .error e => .error e
        | .ok (v, rest2) => if rest2.isEmpty then .ok v else .error "trailing data"
    else .error "expected array"

/-- `MessageHandler::private_serialize_json` at payload type `Vec<u8>`:
`serde_json::to_vec` (which cannot fail on this type), errors mapped to
a tagged message string. -/
def private_serialize_json (v : List (Fin 256)) : Except String (List Nat) :=
  .ok (jsonEncode v)

/-- `MessageHandler::private_serialize_cbor` at payload type `Vec<u8>`. -/
def private_serialize_cbor (v : List (Fin 256)) : Except String (List Nat) :=
  .ok (cborEncode v)

/-- `MessageHandler::private_deserialize_json`: `serde_json::from_slice`
mapped through `Some`, errors mapped to `"Failed to deserialize JSON: "`
plus the underlying cause. -/
def private_deserialize_json (data : List Nat) : Except String (Option (List (Fin 256))) :=
  match jsonDecode data with
  | .ok v => .ok (some v)
  | .error e => .error ("Failed to deserialize JSON: " ++ e)

/-- `MessageHandler::private_deserialize_cbor`: `serde_cbor::from_slice`
mapped through `Some`, errors mapped to `"Failed to deserialize CBOR: "`
plus the underlying cause. -/
def private_deserialize_cbor (data : List Nat) : Except String (Option (List (Fin 256))) :=
  match cborDecode data with
  | .ok v => .ok (some v)
  | .error e => .error ("Failed to deserialize CBOR: " ++ e)

/-- `MessageHandler::serialize` (messages.rs lines 71-76): dispatch on
the format tag. -/
def MessageHandler.serialize (v : List (Fin 256)) (format : MessageFormat) :
    Except String (List Nat) :=
  match format with
  | .Json => private_serialize_json v
  | .Cbor => private_serialize_cbor v

/-- `MessageHandler::deserialize` (messages.rs lines 98-103): dispatch on
the format tag. -/
def MessageHandler.deserialize (data : List Nat) (format : MessageFormat) :
    Except String (Option (List (Fin 256))) :=
  match format with
  | .Json => private_deserialize_json data
  | .Cbor => private_deserialize_cbor data

set_option maxRecDepth 10000

/-- Every decimal printing of a byte is a non-empty digit string without a
forbidden leading zero, and its numeric value is the byte itself. -/
theorem jsonByte_facts : ∀ b : Fin 256,
    ((jsonByte b).all isDigit = true) ∧
    digitsVal (jsonByte b) = b.val ∧
    (jsonByte b).isEmpty = false ∧
    (((jsonByte b).head? == some 48) && ((jsonByte b).length != 1)) = false := by
  decide

/-- A digit byte is not a whitespace byte. -/
theorem isDigit_not_ws {d : Nat} (h : isDigit d = true) : isWsByte d = false := by
  simp only [isDigit, Bool.and_eq_true, decide_eq_true_eq] at h
  simp only [isWsByte, Bool.or_eq_false_iff, beq_eq_false_iff_ne, ne_eq]
  omega

/-- `takeWhile` walks through a block that satisfies the predicate. -/
theorem takeWhile_append_all {p : Nat → Bool} :
    ∀ {l : List Nat} (r : List Nat), (∀ a ∈ l, p a = true) →
      (l ++ r).takeWhile p = l ++ r.takeWhile p
  | [], r, _ => rfl
  | a :: l, r, h => by
    have ha : p a = true := h a (List.mem_cons_self a l)
    simp only [List.cons_append, List.takeWhile_cons, ha, if_true]
    rw [takeWhile_append_all r (fun x hx => h x (List.mem_cons_of_mem a hx))]

/-- `dropWhile` skips a block that satisfies the predicate. -/
theorem dropWhile_append_all {p : Nat → Bool} :
    ∀ {l : List Nat} (r : List Nat), (∀ a ∈ l, p a = true) →
      (l ++ r).dropWhile p = r.dropWhile p
  | [], r, _ => rfl
  | a :: l, r, h => by
    have ha : p a = true := h a (List.mem_cons_self a l)
    simp only [List.cons_append, List.dropWhile_cons, ha, if_true]
    exact dropWhile_append_all r (fun x hx => h x (List.mem_cons_of_mem a hx))

/-- If `takeWhile` takes nothing, `dropWhile` drops nothing. -/
theorem dropWhile_of_takeWhile_nil {p : Nat → Bool} :
    ∀ {r : List Nat}, r.takeWhile p = [] → r.dropWhile p = r
  | [], _ => rfl
  | a :: r, h => by
    by_cases ha : p a = true
    · simp only [List.takeWhile_cons, ha, if_true] at h
      exact absurd h (List.cons_ne_nil _ _)
    · simp only [List.dropWhile_cons, ha, if_false]
      simp

/-- `parseNum` on the decimal printing of a byte followed by a
non-digit remainder returns exactly that byte and remainder. -/
theorem parseNum_encode (b : Fin 256) (rest : List Nat)
    (hrest : rest.takeWhile isDigit = []) :
    parseNum (jsonByte b ++ rest) = .ok (b, rest) := by
  obtain ⟨hall, hval, hne, hlead⟩ := jsonByte_facts b
  have hall' : ∀ a ∈ jsonByte b, isDigit a = true := by
    simpa [List.all_eq_true] using hall
  have htake : (jsonByte b ++ rest).takeWhile isDigit = jsonByte b := by
    rw [takeWhile_append_all rest hall', hrest, List.append_nil]
  have hdrop : (jsonByte b ++ rest).dropWhile isDigit = rest := by
    rw [dropWhile_append_all rest hall', dropWhile_of_takeWhile_nil hrest]
  simp only [parseNum, htake, hdrop, hne, hlead, hval, Bool.false_eq_true, if_false,
    b.isLt, dif_pos]

/-- The comma-separated element encoding always starts with a digit. -/
theorem jsonElemsEncode_head :
    ∀ (b : Fin 256) (v : List (Fin 256)), ∃ d t,
      jsonElemsEncode (b :: v) = d :: t ∧ isDigit d = true := by
  intro b v
  obtain ⟨hall, _, hne, _⟩ := jsonByte_facts b
  have hall' : ∀ a ∈ jsonByte b, isDigit a = true := by
    simpa [List.all_eq_true] using hall
  obtain ⟨d, t, hdt⟩ : ∃ d t, jsonByte b = d :: t := by
    cases hb : jsonByte b with
    | nil => rw [hb] at hne; simp at hne
    | cons d t => exact ⟨d, t, rfl⟩
  have hd : isDigit d = true := hall' d (by rw [hdt]; exact List.mem_cons_self d t)
  cases v with
  | nil => exact ⟨d, t, by simpa [jsonElemsEncode] using hdt, hd⟩
  | cons c rest =>
    exact ⟨d, t ++ 44 :: jsonElemsEncode (c :: rest),
      by simp [jsonElemsEncode, hdt], hd⟩

/-- Each element contributes at least one byte to the encoding. -/
theorem jsonElemsEncode_length :
    ∀ v : List (Fin 256), v.length ≤ (jsonElemsEncode v).length
  | [] => Nat.le_refl 0
  | [b] => by
    obtain ⟨_, _, hne, _⟩ := jsonByte_facts b
    simp only [jsonElemsEncode, List.length_cons, List.length_nil]
    cases hb : jsonByte b with
    | nil => rw [hb] at hne; simp at hne
    | cons d t => simp [hb]
  | b :: c :: rest => by
    obtain ⟨_, _, hne, _⟩ := jsonByte_facts b
    have ih := jsonElemsEncode_length (c :: rest)
    simp only [List.length_cons] at ih
    simp only [jsonElemsEncode, List.length_append, List.length_cons]
    cases hb : jsonByte b with
    | nil => rw [hb] at hne; simp at hne
    | cons d t => simp only [hb, List.length_cons]; omega

/-- `parseElems` consumes the encoding of a non-empty element list up to
the closing bracket and returns exactly those elements, for any
sufficient fuel. -/
theorem parseElems_encode :
    ∀ (v : List (Fin 256)) (tail : List Nat) (fuel : Nat), v ≠ [] →
      v.length ≤ fuel →
      parseElems fuel (jsonElemsEncode v ++ 93 :: tail) = .ok (v, tail)
  | [], _, _, hne, _ => absurd rfl hne
  | [b], tail, fuel, _, hfuel => by
    obtain ⟨f, rfl⟩ : ∃ f, fuel = f + 1 := by
      cases fuel with
      | zero => simp at hfuel
      | succ f => exact ⟨f, rfl⟩
    have hnum : parseNum (jsonByte b ++ 93 :: tail) = .ok (b, 93 :: tail) :=
      parseNum_encode b (93 :: tail) (by simp [List.takeWhile_cons, isDigit])
    have hws : (93 :: tail).dropWhile isWsByte = 93 :: tail := by
      simp [List.dropWhile_cons, isWsByte]
    simp only [jsonElemsEncode, parseElems, hnum, hws]
  | b :: c :: rest, tail, fuel, _, hfuel => by
    obtain ⟨f, rfl⟩ : ∃ f, fuel = f + 1 := by
      cases fuel with
      | zero => simp at hfuel
      | succ f => exact ⟨f, rfl⟩
    have hne2 : (c :: rest) ≠ ([] : List (Fin 256)) := by simp
    have hfuel2 : (c :: rest).length ≤ f := by
      simp only [List.length_cons] at hfuel ⊢; omega
    have ih := parseElems_encode (c :: rest) tail f hne2 hfuel2
    obtain ⟨d, t, hdt, hd⟩ := jsonElemsEncode_head c rest
    have hX : jsonElemsEncode (c :: rest) ++ 93 :: tail = d :: (t ++ 93 :: tail) := by
      rw [hdt]; rfl
    have hnum : parseNum (jsonByte b ++ 44 :: (jsonElemsEncode (c :: rest) ++ 93 :: tail)) =
        .ok (b, 44 :: (jsonElemsEncode (c :: rest) ++ 93 :: tail)) :=
      parseNum_encode b _ (by simp [List.takeWhile_cons, isDigit])
    have hws : (44 :: (jsonElemsEncode (c :: rest) ++ 93 :: tail)).dropWhile isWsByte =
        44 :: (jsonElemsEncode (c :: rest) ++ 93 :: tail) := by
      simp [List.dropWhile_cons, isWsByte]
    have hws2 : (jsonElemsEncode (c :: rest) ++ 93 :: tail).dropWhile isWsByte =
        jsonElemsEncode (c :: rest) ++ 93 :: tail := by
      rw [hX, List.dropWhile_cons, isDigit_not_ws hd]; simp
    have henc : jsonElemsEncode (b :: c :: rest) ++ 93 :: tail =
        jsonByte b ++ 44 :: (jsonElemsEncode (c :: rest) ++ 93 :: tail) := by
      simp [jsonElemsEncode]
    rw [henc]
    simp only [parseElems, hnum, hws, hws2, ih]

/-- Decoding inverts encoding for JSON arrays of bytes. -/
theorem jsonDecode_encode (v : List (Fin 256)) : jsonDecode (jsonEncode v) = .ok v := by
  cases v with
  | nil => rfl
  | cons b rest =>
    obtain ⟨d, t, hdt, hd⟩ := jsonElemsEncode_head b rest
    have hd57 : 48 ≤ d ∧ d ≤ 57 := by
      simpa [isDigit, Bool.and_eq_true, decide_eq_true_eq] using hd
    have h1 : (91 :: (jsonElemsEncode (b :: rest) ++ [93])).dropWhile isWsByte
        = 91 :: (jsonElemsEncode (b :: rest) ++ [93]) := by
      rw [List.dropWhile_cons]
      norm_num [isWsByte]
    have hr : (jsonElemsEncode (b :: rest) ++ [93]).dropWhile isWsByte
        = d :: (t ++ [93]) := by
      rw [hdt, List.cons_append, List.dropWhile_cons, isDigit_not_ws hd]
      simp
    have hfuel : (b :: rest).length ≤ (d :: (t ++ [93])).length + 1 := by
      have hlen := jsonElemsEncode_length (b :: rest)
      rw [hdt] at hlen
      simp only [List.length_cons, List.length_append] at hlen ⊢
      omega
    have hpe := parseElems_encode (b :: rest) [] ((d :: (t ++ [93])).length + 1)
      (by simp) hfuel
    have hform : jsonElemsEncode (b :: rest) ++ 93 :: ([] : List Nat)
        = d :: (t ++ [93]) := by
      rw [hdt, List.cons_append]
    rw [hform] at hpe
    have henc : jsonEncode (b :: rest) = 91 :: (jsonElemsEncode (b :: rest) ++ [93]) := rfl
    rw [henc]
    simp only [jsonDecode, h1, hr]
    split
    · rename_i r2 heq
      have : d = 93 := (List.cons.injEq _ _ _ _).mp heq |>.1
      omega
    · rw [hpe]
      simp

/-- Reading back the encoded elements of a byte array returns exactly
those elements. -/
theorem readElems_encode :
    ∀ (v : List (Fin 256)) (tail : List Nat),
      readElems v.length (cborElems v ++ tail) = .ok (v, tail)
  | [], _ => rfl
  | b :: rest, tail => by
    have ih := readElems_encode rest tail
    by_cases hb : b.val < 24
    · have hc : cborU8 b = [b.val] := by simp [cborU8, hb]
      have hr : readU8 (b.val :: (cborElems rest ++ tail))
          = .ok (b, cborElems rest ++ tail) := by
        simp only [readU8]
        rw [if_pos (by omega), Nat.mod_eq_of_lt (by omega)]
        simp only [readArg]
        rw [if_pos hb]
        simp [b.isLt]
      have henc : cborElems (b :: rest) ++ tail
          = b.val :: (cborElems rest ++ tail) := by
        simp [cborElems, hc]
      simp only [List.length_cons, henc, readElems, hr, ih]
    · have hc : cborU8 b = [24, b.val] := by simp [cborU8, hb]
      have hr : readU8 (24 :: b.val :: (cborElems rest ++ tail))
          = .ok (b, cborElems rest ++ tail) := by
        simp only [readU8]
        rw [if_pos trivial]
        have hra : readArg (24 % 32) (b.val :: (cborElems rest ++ tail))
            = .ok (b.val, cborElems rest ++ tail) := by
          norm_num [readArg]
        rw [hra]
        simp [b.isLt]
      have henc : cborElems (b :: rest) ++ tail
          = 24 :: b.val :: (cborElems rest ++ tail) := by
        simp [cborElems, hc]
      simp only [List.length_cons, henc, readElems, hr, ih]

/-- The array head written for an argument below `2^64` is read back as
that same argument, with the remainder untouched. -/
theorem cborHead4_read (n : Nat) (hn : n < 18446744073709551616) (X : List Nat) :
    ∃ ib args, cborHead 4 n = ib :: args ∧ ib / 32 = 4 ∧
      readArg (ib % 32) (args ++ X) = .ok (n, X) := by
  by_cases h1 : n < 24
  · refine ⟨32 * 4 + n, [], by simp [cborHead, h1], by omega, ?_⟩
    have : (32 * 4 + n) % 32 = n := by omega
    rw [this]
    simp [readArg, h1]
  · by_cases h2 : n < 256
    · refine ⟨32 * 4 + 24, [n], by simp [cborHead, h1, h2], by norm_num, ?_⟩
      have : (32 * 4 + 24) % 32 = 24 := by norm_num
      rw [this]
      simp [readArg]
    · by_cases h3 : n < 65536
      · refine ⟨32 * 4 + 25, [n / 256, n % 256], by simp [cborHead, h1, h2, h3],
          by norm_num, ?_⟩
        have : (32 * 4 + 25) % 32 = 25 := by norm_num
        rw [this]
        simp only [readArg, List.cons_append]
        norm_num
        omega
      · by_cases h4 : n < 4294967296
        · refine ⟨32 * 4 + 26,
            [n / 16777216, n / 65536 % 256, n / 256 % 256, n % 256],
            by simp [cborHead, h1, h2, h3, h4], by norm_num, ?_⟩
          have : (32 * 4 + 26) % 32 = 26 := by norm_num
          rw [this]
          simp only [readArg, List.cons_append]
          norm_num
          omega
        · refine ⟨32 * 4 + 27,
            [n / 72057594037927936, n / 281474976710656 % 256,
             n / 1099511627776 % 256, n / 4294967296 % 256, n / 16777216 % 256,
             n / 65536 % 256, n / 256 % 256, n % 256],
            by simp [cborHead, h1, h2, h3, h4], by norm_num, ?_⟩
          have : (32 * 4 + 27) % 32 = 27 := by norm_num
          rw [this]
          simp only [readArg, List.cons_append]
          norm_num
          omega

/-- Decoding inverts encoding for CBOR arrays of bytes whose length fits
the 64-bit length argument. -/
theorem cborDecode_encode (v : List (Fin 256))
    (hn : v.length < 18446744073709551616) :
    cborDecode (cborEncode v) = .ok v := by
  obtain ⟨ib, args, hhead, hdiv, hread⟩ := cborHead4_read v.length hn (cborElems v)
  have henc : cborEncode v = ib :: (args ++ cborElems v) := by
    rw [cborEncode, hhead, List.cons_append]
  have helems : readElems v.length (cborElems v) = .ok (v, []) := by
    have := readElems_encode v []
    rwa [List.append_nil] at this
  rw [henc]
  simp only [cborDecode, if_pos hdiv, hread, helems, List.isEmpty_nil, if_true]

/-- C1: for every serializable value `v` (here: any `Vec<u8>` payload,
whose length fits the transport's 64-bit size) and every format in
{JSON, CBOR}, deserializing the bytes produced by
`MessageHandler::serialize(v, format)` under the same format succeeds
and yields `Ok(Some(v))`. -/
theorem serialize_deserialize_roundtrip (v : List (Fin 256)) (format : MessageFormat)
    (bs : List Nat) (hlen : v.length < 18446744073709551616)
    (hser : MessageHandler.serialize v format = .ok bs) :
    MessageHandler.deserialize bs format = .ok (some v) := by
  cases format with
  | Json =>
    simp only [MessageHandler.serialize, private_serialize_json, Except.ok.injEq] at hser
    rw [MessageHandler.deserialize, private_deserialize_json, ← hser,
      jsonDecode_encode]
  | Cbor =>
    simp only [MessageHandler.serialize, private_serialize_cbor, Except.ok.injEq] at hser
    rw [MessageHandler.deserialize, private_deserialize_cbor, ← hser,
      cborDecode_encode v hlen]

/-- Round-trip witnessed at the concrete payload `[0, 23, 24, 255]` for
both formats, with the serialized byte strings spelled out. -/
theorem serialize_deserialize_roundtrip_witness :
    MessageHandler.deserialize
        [91, 48, 44, 50, 51, 44, 50, 52, 44, 50, 53, 53, 93] MessageFormat.Json
      = .ok (some [(0 : Fin 256), 23, 24, 255]) ∧
    MessageHandler.deserialize [132, 0, 23, 24, 24, 24, 255] MessageFormat.Cbor
      = .ok (some [(0 : Fin 256), 23, 24, 255]) :=
  ⟨serialize_deserialize_roundtrip [0, 23, 24, 255] MessageFormat.Json
      [91, 48, 44, 50, 51, 44, 50, 52, 44, 50, 53, 53, 93] (by norm_num) rfl,
   serialize_deserialize_roundtrip [0, 23, 24, 255] MessageFormat.Cbor
      [132, 0, 23, 24, 24, 24, 255] (by norm_num) rfl⟩

/-- C6: `MessageHandler::deserialize` is total on arbitrary byte input
(it never panics); every input either deserializes to `Ok(Some v)` or
produces a decode-failure error tagged with the format and carrying the
underlying cause, and `Ok(None)` is never produced. -/
theorem deserialize_total_decode_failure (data : List Nat) (format : MessageFormat) :
    ((∃ v, MessageHandler.deserialize data format = .ok (some v)) ∨
      (∃ cause, MessageHandler.deserialize data format =
          .error ((match format with
            | .Json => "Failed to deserialize JSON: "
            | .Cbor => "Failed to deserialize CBOR: ") ++ cause))) ∧
    MessageHandler.deserialize data format ≠ .ok none := by
  cases format with
  | Json =>
    simp only [MessageHandler.deserialize, private_deserialize_json]
    cases h : jsonDecode data with
    | ok v => exact ⟨Or.inl ⟨v, rfl⟩, by simp⟩
    | error e => exact ⟨Or.inr ⟨e, rfl⟩, by simp⟩
  | Cbor =>
    simp only [MessageHandler.deserialize, private_deserialize_cbor]
    cases h : cborDecode data with
    | ok v => exact ⟨Or.inl ⟨v, rfl⟩, by simp⟩
    | error e => exact ⟨Or.inr ⟨e, rfl⟩, by simp⟩

/-- Observable trace of one reconnect-loop run: the value returned to the
caller, the number of connector calls made, and the slept delays (in
seconds) in order. -/
structure RunTrace (α : Type) where
  result : α
  calls : Nat
  sleeps : List Nat
deriving DecidableEq, Repr

/-- `ReconnectStrategy` (reconnection.rs): maximum attempts and base
delay in seconds. -/
structure ReconnectStrategy where
  retries : Nat
  base_delay : Nat
deriving DecidableEq, Repr

/-- `ReconnectStrategy::new` (reconnection.rs). -/
def ReconnectStrategy.new (retries : Nat) (base_delay_secs : Nat) : ReconnectStrategy :=
  { retries := retries, base_delay := base_delay_secs }

/-- `ReconnectStrategy::get_retries` (reconnection.rs). -/
def ReconnectStrategy.get_retries (s : ReconnectStrategy) : Nat :=
  s.retries

/-- The delay computed in the body of `ReconnectStrategy::reconnect`
(reconnection.rs line 136): `self.base_delay * attempt`. -/
def strategyDelay (base attempt : Nat) : Nat :=
  base * attempt

/-- Loop body of `ReconnectStrategy::reconnect` (reconnection.rs
lines 124-143), unrolled over the remaining attempts: on the attempt
numbered `attempt` (1-based) the connector is called; `Ok` returns
`Some(())` at once; on `Err` the loop sleeps `base * attempt` and
continues; after the last attempt it returns `None`.  `connect k` models
`client.connect().await` on the k-th call. -/
def reconnectAux (base : Nat) (connect : Nat → Except String Unit) :
    Nat → Nat → RunTrace (Option Unit)
  | _, 0 => ⟨none, 0, []⟩
  | attempt, left + 1 =>
    match connect attempt with
    | .ok _ => ⟨some (), 1, []⟩
    | .error _ =>
      let t := reconnectAux base connect (attempt + 1) left
      ⟨t.result, t.calls + 1, strategyDelay base attempt :: t.sleeps⟩

/-- `ReconnectStrategy::reconnect`: the `for attempt in 1..=self.retries`
loop. -/
def ReconnectStrategy.reconnect (s : ReconnectStrategy)
    (connect : Nat → Except String Unit) : RunTrace (Option Unit) :=
  reconnectAux s.base_delay connect 1 s.retries

/-- The delay computed in `WebSocketController::reconnect_if_needed`
(controller.rs line 197): `2_u64.pow(attempts)` seconds. -/
def controllerDelay (attempts : Nat) : Nat :=
  2 ^ attempts

/-- Loop body of `WebSocketController::reconnect_if_needed`
(controller.rs lines 190-203), unrolled over the remaining attempts:
`attempts` starts at `0`; on `Err` the loop sleeps `2^attempts` seconds
and increments `attempts`; when `attempts` reaches `retries` it returns
the terminal error. -/
def reconnectIfNeededAux (connect : Nat → Except String Unit) :
    Nat → Nat → RunTrace (Except String Unit)
  | _, 0 => ⟨.error "All reconnection attempts failed.", 0, []⟩
  | attempts, left + 1 =>
    match connect attempts with
    | .ok _ => ⟨.ok (), 1, []⟩
    | .error _ =>
      let t := reconnectIfNeededAux connect (attempts + 1) left
      ⟨t.result, t.calls + 1, controllerDelay attempts :: t.sleeps⟩

/-- `WebSocketClient` (connection.rs): server URL and retry budget. -/
structure WebSocketClient where
  url : String
  retries : Nat
deriving DecidableEq, Repr

/-- `WebSocketClient::new` (connection.rs). -/
def WebSocketClient.new (url : String) (retries : Nat) : WebSocketClient :=
  { url := url, retries := retries }

/-- `WebSocketClient::get_retries` (connection.rs). -/
def WebSocketClient.get_retries (c : WebSocketClient) : Nat :=
  c.retries

/-- Loop body of `WebSocketClient::reconnect` (connection.rs): while
`retries_left > 0`, call connect; on `Err` decrement and sleep one
second; exhaustion returns the `TimedOut` error. -/
def clientReconnectAux (connect : Nat → Except String Unit) :
    Nat → Nat → RunTrace (Except String Unit)
  | _, 0 => ⟨.error "Reconnection failed", 0, []⟩
  | k, left + 1 =>
    match connect k with
    | .ok _ => ⟨.ok (), 1, []⟩
    | .error _ =>
      let t := clientReconnectAux connect (k + 1) left
      ⟨t.result, t.calls + 1, 1 :: t.sleeps⟩

/-- `WebSocketClient::reconnect` (connection.rs). -/
def WebSocketClient.reconnect (c : WebSocketClient)
    (connect : Nat → Except String Unit) : RunTrace (Except String Unit) :=
  clientReconnectAux connect 1 c.retries

/-- `WebSocketController` (controller.rs): client, optional reconnect
strategy, keep-alive ping interval in seconds, retry budget. -/
structure WebSocketController where
  client : WebSocketClient
  reconnect_strategy : Option ReconnectStrategy
  ping_interval : Nat
  retries : Nat
deriving DecidableEq, Repr

/-- `WebSocketController::new` (controller.rs lines 55-62): the strategy
is always constructed with base delay 2, and `ping_interval` defaults to
5 seconds when absent (`ping_interval.unwrap_or(5)`). -/
def WebSocketController.new (url : String) (retries : Nat)
    (ping_interval : Option Nat) : WebSocketController :=
  { client := WebSocketClient.new url retries
    reconnect_strategy := some (ReconnectStrategy.new retries 2)
    ping_interval := ping_interval.getD 5
    retries := retries }

/-- `WebSocketController::reconnect_if_needed` (controller.rs
lines 190-203). -/
def WebSocketController.reconnect_if_needed (c : WebSocketController)
    (connect : Nat → Except String Unit) : RunTrace (Except String Unit) :=
  reconnectIfNeededAux connect 0 c.retries

/-- `WebSocketController::maintain_connection` (controller.rs
lines 166-183): unconditionally spawns a ticker task with period
`self.ping_interval` that sends a ping every tick.  Modelled as the
period of the probe schedule it starts; `none` would mean that no
probing is scheduled, which this function never does. -/
def WebSocketController.maintain_connection (c : WebSocketController) : Option Nat :=
  some c.ping_interval

/-- `impl Connectable for WebSocketClient` (reconnection.rs lines 36-48):
spawns the real connection attempt as a detached background task and
returns `Ok(())` unconditionally; `spawnedResult`, the outcome of the
spawned `client.connect().await`, is only logged and never propagated. -/
def WebSocketClient.connectable_connect (spawnedResult : Except String Unit) :
    Except String Unit :=
  Except.ok ()

/-- A connector that fails on every call, as in the repository's
`MockWebSocketClient` test double. -/
def alwaysFailConnect : Nat → Except String Unit :=
  fun _ => .error "Connection refused"

/-- Against an always-failing connector, the strategy loop makes exactly
one call per remaining attempt, sleeps `base * attempt` after every
failure (the final one included), and returns `None`. -/
theorem reconnectAux_fail (base : Nat) (connect : Nat → Except String Unit)
    (hfail : ∀ k, ∃ e, connect k = .error e) :
    ∀ (left attempt : Nat),
      reconnectAux base connect attempt left =
        ⟨none, left, (List.range left).map (fun i => strategyDelay base (attempt + i))⟩
  | 0, _ => rfl
  | left + 1, attempt => by
    obtain ⟨e, he⟩ := hfail attempt
    have ih := reconnectAux_fail base connect hfail left (attempt + 1)
    simp only [reconnectAux, he, ih, List.range_succ_eq_map, List.map_cons,
      List.map_map, RunTrace.mk.injEq]
    refine ⟨trivial, trivial, ?_⟩
    simp only [Nat.add_zero, List.cons.injEq]
    refine ⟨trivial, ?_⟩
    apply List.map_congr_left
    intro i _
    simp only [Function.comp_apply]
    congr 1
    omega

/-- Against an always-failing connector, the controller loop makes
exactly one call per remaining attempt, sleeps `2^attempts` after every
failure (the final one included), and returns the terminal error. -/
theorem reconnectIfNeededAux_fail (connect : Nat → Except String Unit)
    (hfail : ∀ k, ∃ e, connect k = .error e) :
    ∀ (left attempts : Nat),
      reconnectIfNeededAux connect attempts left =
        ⟨.error "All reconnection attempts failed.", left,
          (List.range left).map (fun i => controllerDelay (attempts + i))⟩
  | 0, _ => rfl
  | left + 1, attempts => by
    obtain ⟨e, he⟩ := hfail attempts
    have ih := reconnectIfNeededAux_fail connect hfail left (attempts + 1)
    simp only [reconnectIfNeededAux, he, ih, List.range_succ_eq_map, List.map_cons,
      List.map_map, RunTrace.mk.injEq]
    refine ⟨trivial, trivial, ?_⟩
    simp only [Nat.add_zero, List.cons.injEq]
    refine ⟨trivial, ?_⟩
    apply List.map_congr_left
    intro i _
    simp only [Function.comp_apply]
    congr 1
    omega

/-- Against an always-failing connector, the client loop makes exactly
one call per remaining attempt, sleeps one second after every failure
(the final one included), and returns the timeout error. -/
theorem clientReconnectAux_fail (connect : Nat → Except String Unit)
    (hfail : ∀ k, ∃ e, connect k = .error e) :
    ∀ (left k : Nat),
      clientReconnectAux connect k left =
        ⟨.error "Reconnection failed", left, List.replicate left 1⟩
  | 0, _ => rfl
  | left + 1, k => by
    obtain ⟨e, he⟩ := hfail k
    have ih := clientReconnectAux_fail connect hfail left (k + 1)
    simp only [clientReconnectAux, he, ih, List.replicate_succ, RunTrace.mk.injEq]

/-- A delay sequence follows the linear growth law of the spec,
`base_delay * attempt` for 1-based attempt indices. -/
def followsLinearLaw (delays : List Nat) (base : Nat) : Prop :=
  delays = (List.range delays.length).map (fun k => base * (k + 1))

/-- A delay sequence follows the exponential growth law of the spec,
`base_delay * 2^(attempt-1)` for 1-based attempt indices. -/
def followsExpLaw (delays : List Nat) (base : Nat) : Prop :=
  delays = (List.range delays.length).map (fun k => base * 2 ^ k)

/-- C2 counterexample: under the configuration surface of
`WebSocketController::new` (retry budget 3, strategy base delay 2), the
delays slept by `ReconnectStrategy::reconnect`,
`WebSocketController::reconnect_if_needed` and `WebSocketClient::reconnect`
against an always-failing connector do not all follow one of the two
spec growth laws (linear `base_delay * attempt` or exponential
`base_delay * 2^(attempt-1)`): the sequences are `[2, 4, 6]`, `[1, 2, 4]`
and `[1, 1, 1]`. -/
theorem backoff_one_law_counterexample :
    ¬ ((followsLinearLaw ((ReconnectStrategy.new 3 2).reconnect alwaysFailConnect).sleeps 2 ∧
        followsLinearLaw
          ((WebSocketController.new "ws://example.com" 3 (some 5)).reconnect_if_needed
            alwaysFailConnect).sleeps 2 ∧
        followsLinearLaw
          ((WebSocketClient.new "ws://example.com" 3).reconnect alwaysFailConnect).sleeps 2) ∨
       (followsExpLaw ((ReconnectStrategy.new 3 2).reconnect alwaysFailConnect).sleeps 2 ∧
        followsExpLaw
          ((WebSocketController.new "ws://example.com" 3 (some 5)).reconnect_if_needed
            alwaysFailConnect).sleeps 2 ∧
        followsExpLaw
          ((WebSocketClient.new "ws://example.com" 3).reconnect alwaysFailConnect).sleeps 2)) := by
  simp only [followsLinearLaw, followsExpLaw]
  decide

/-- C2 amended: the deployment mixes three different backoff laws.
`ReconnectStrategy::reconnect` sleeps by the linear law
`base_delay * attempt`, `WebSocketController::reconnect_if_needed` by the
exponential law `2^(attempt-1)` seconds (ignoring the strategy's
configured base delay), and `WebSocketClient::reconnect` by a constant
one second; under the controller's configuration surface (base delay 2)
the sequences disagree from the first delay on. -/
theorem backoff_laws_mixed (url : String) (po : Option Nat) (N base : Nat) :
    ((ReconnectStrategy.new N base).reconnect alwaysFailConnect).sleeps
        = (List.range N).map (fun i => strategyDelay base (1 + i)) ∧
    ((WebSocketController.new url N po).reconnect_if_needed alwaysFailConnect).sleeps
        = (List.range N).map (fun i => controllerDelay i) ∧
    ((WebSocketClient.new url N).reconnect alwaysFailConnect).sleeps
        = List.replicate N 1 ∧
    ((ReconnectStrategy.new 3 2).reconnect alwaysFailConnect).sleeps ≠
      ((WebSocketController.new url 3 po).reconnect_if_needed alwaysFailConnect).sleeps := by
  have hfail : ∀ k, ∃ e, alwaysFailConnect k = .error e :=
    fun _ => ⟨"Connection refused", rfl⟩
  refine ⟨?_, ?_, ?_, ?_⟩
  · rw [ReconnectStrategy.reconnect, reconnectAux_fail _ _ hfail]
    simp [ReconnectStrategy.new]
  · rw [WebSocketController.reconnect_if_needed, reconnectIfNeededAux_fail _ hfail]
    simp [WebSocketController.new]
  · rw [WebSocketClient.reconnect, clientReconnectAux_fail _ hfail]
    simp [WebSocketClient.new]
  · rw [ReconnectStrategy.reconnect, reconnectAux_fail _ _ hfail,
      WebSocketController.reconnect_if_needed, reconnectIfNeededAux_fail _ hfail]
    simp [ReconnectStrategy.new, WebSocketController.new, strategyDelay, controllerDelay,
      List.range_succ]

/-- C3 counterexample: with a retry budget of one, the strategy loop
performs its single (final) attempt against an always-failing connector
and still sleeps `next_delay(1) = base_delay * 1` afterwards, so the
sleep does not happen only when attempts remain. -/
theorem reconnect_sleeps_after_final_attempt :
    ((ReconnectStrategy.new 1 1).reconnect alwaysFailConnect).calls = 1 ∧
    ((ReconnectStrategy.new 1 1).reconnect alwaysFailConnect).sleeps = [1] ∧
    ((ReconnectStrategy.new 1 1).reconnect alwaysFailConnect).sleeps ≠ [] ∧
    ((WebSocketController.new "ws://example.com" 1 (some 5)).reconnect_if_needed
        alwaysFailConnect).sleeps = [1] := by
  refine ⟨rfl, rfl, ?_, rfl⟩
  decide

/-- C3 amended: for every retry budget `N`, the loops of
`ReconnectStrategy::reconnect` and `WebSocketController::reconnect_if_needed`
against an always-failing connector call the connector exactly `N` times
(never `N + 1`) and return the terminal exhaustion failure, but they
sleep after every failed attempt including the final one: `N` delays
are slept, not `N - 1`. -/
theorem reconnect_exhaustion_trace (url : String) (po : Option Nat) (N base : Nat) :
    (ReconnectStrategy.new N base).reconnect alwaysFailConnect
        = ⟨none, N, (List.range N).map (fun i => strategyDelay base (1 + i))⟩ ∧
    (WebSocketController.new url N po).reconnect_if_needed alwaysFailConnect
        = ⟨.error "All reconnection attempts failed.", N,
            (List.range N).map (fun i => controllerDelay i)⟩ := by
  have hfail : ∀ k, ∃ e, alwaysFailConnect k = .error e :=
    fun _ => ⟨"Connection refused", rfl⟩
  constructor
  · rw [ReconnectStrategy.reconnect, reconnectAux_fail _ _ hfail]
    simp [ReconnectStrategy.new]
  · rw [WebSocketController.reconnect_if_needed, reconnectIfNeededAux_fail _ hfail]
    simp [WebSocketController.new]

/-- C4: both retry-delay laws are monotonically non-decreasing in the
attempt index: `base_delay * attempt` and `2^attempts` both grow (weakly)
with the attempt count. -/
theorem retry_delay_monotone (base a b : Nat) (h : a < b) :
    strategyDelay base a ≤ strategyDelay base b ∧
    controllerDelay a ≤ controllerDelay b := by
  constructor
  · exact Nat.mul_le_mul_left base (Nat.le_of_lt h)
  · exact Nat.pow_le_pow_right (by norm_num) (Nat.le_of_lt h)

/-- Delay monotonicity witnessed at base delay 2 between the first and
second attempts. -/
theorem retry_delay_monotone_witness :
    strategyDelay 2 1 ≤ strategyDelay 2 2 ∧ controllerDelay 1 ≤ controllerDelay 2 :=
  retry_delay_monotone 2 1 2 (by decide)

/-- C10: the `Connectable` implementation for `WebSocketClient` returns
`Ok(())` unconditionally, whatever the spawned background connection
attempt would produce, so `ReconnectStrategy::reconnect` applied to it
returns `Some(())` on the first attempt for every non-zero retry budget:
one connector call, no sleeps, no backoff. -/
theorem connectable_always_ok_first_attempt (res : Except String Unit)
    (s : ReconnectStrategy) (h : 1 ≤ s.retries) :
    WebSocketClient.connectable_connect res = .ok () ∧
    s.reconnect (fun _ => WebSocketClient.connectable_connect res)
      = ⟨some (), 1, []⟩ := by
  refine ⟨rfl, ?_⟩
  obtain ⟨left, hl⟩ : ∃ left, s.retries = left + 1 := ⟨s.retries - 1, by omega⟩
  rw [ReconnectStrategy.reconnect, hl]
  rfl

/-- First-attempt success witnessed with a failing spawned result and a
three-attempt strategy. -/
theorem connectable_always_ok_first_attempt_witness :
    WebSocketClient.connectable_connect (.error "network down") = .ok () ∧
    (ReconnectStrategy.new 3 1).reconnect
        (fun _ => WebSocketClient.connectable_connect (.error "network down"))
      = ⟨some (), 1, []⟩ :=
  connectable_always_ok_first_attempt (.error "network down")
    (ReconnectStrategy.new 3 1) (by decide)

/-- One transport frame (`tungstenite::Message`): binary data, text
(carried here as its UTF-8 bytes), ping, pong, or close with an optional
close payload. -/
inductive Frame where
  | Binary (data : List Nat) : Frame
  | Text (data : List Nat) : Frame
  | Ping (data : List Nat) : Frame
  | Pong (data : List Nat) : Frame
  | Close (data : Option (List Nat)) : Frame
deriving DecidableEq, Repr

/-- `WebSocketController::receive_message` (controller.rs lines 116-136):
`next` models the stream item `ws_stream.next().await`
(`Option<Result<Message, Error>>`); the `msg?` propagates stream errors,
binary and text data frames are surfaced as bytes, ping and pong are
consumed to `Ok(None)`, close becomes an error, and an ended stream is
an error. -/
def WebSocketController.receive_message (next : Option (Except String Frame)) :
    Except String (Option (List Nat)) :=
  match next with
  | some (.error e) => .error e
  | some (.ok (.Binary data)) => .ok (some data)
  | some (.ok (.Text text)) => .ok (some text)
  | some (.ok (.Ping _)) => .ok none
  | some (.ok (.Pong _)) => .ok none
  | some (.ok (.Close _)) => .error "Connection closed by server"
  | none => .error "No message received"

/-- `WebSocketClient::receive_message` (connection.rs lines 85-97):
`connect` models `self.connect().await` (its `.ok()?` short-circuits to
`None`); `next` models the first stream item.  Only `Some(Ok(Text))` and
`Some(Ok(Binary))` yield bytes; every other frame — ping, pong and close
alike — and every stream error or end yields `None`. -/
def WebSocketClient.receive_message (connect : Except String Unit)
    (next : Option (Except String Frame)) : Option (List Nat) :=
  match connect with
  | .error _ => none
  | .ok _ =>
    match next with
    | some (.ok (.Text text)) => some text
    | some (.ok (.Binary data)) => some data
    | some (.ok _) => none
    | some (.error _) => none
    | none => none

/-- C5 counterexample: `WebSocketClient::receive_message` consumes a
close frame to `None`, indistinguishable from a ping, instead of
yielding an error indicating the connection was closed. -/
theorem client_receive_close_yields_none :
    WebSocketClient.receive_message (.ok ()) (some (.ok (Frame.Close none))) = none ∧
    WebSocketClient.receive_message (.ok ()) (some (.ok (Frame.Ping []))) = none ∧
    WebSocketController.receive_message (some (.ok (Frame.Close none)))
      = .error "Connection closed by server" :=
  ⟨rfl, rfl, rfl⟩

/-- C5 amended: `WebSocketController::receive_message` behaves as the
claim states — ping and pong yield `Ok(None)`, close yields a
connection-closed error, text and binary are returned as bytes — but
`WebSocketClient::receive_message` returns `None` for ping, pong and
close alike, surfacing no error for a close frame. -/
theorem receive_frame_dispatch :
    (∀ data, WebSocketController.receive_message (some (.ok (Frame.Binary data)))
        = .ok (some data)) ∧
    (∀ text, WebSocketController.receive_message (some (.ok (Frame.Text text)))
        = .ok (some text)) ∧
    (∀ data, WebSocketController.receive_message (some (.ok (Frame.Ping data)))
        = .ok none) ∧
    (∀ data, WebSocketController.receive_message (some (.ok (Frame.Pong data)))
        = .ok none) ∧
    (∀ cf, WebSocketController.receive_message (some (.ok (Frame.Close cf)))
        = .error "Connection closed by server") ∧
    (∀ data, WebSocketClient.receive_message (.ok ()) (some (.ok (Frame.Binary data)))
        = some data) ∧
    (∀ text, WebSocketClient.receive_message (.ok ()) (some (.ok (Frame.Text text)))
        = some text) ∧
    (∀ data, WebSocketClient.receive_message (.ok ()) (some (.ok (Frame.Ping data)))
        = none) ∧
    (∀ data, WebSocketClient.receive_message (.ok ()) (some (.ok (Frame.Pong data)))
        = none) ∧
    (∀ cf, WebSocketClient.receive_message (.ok ()) (some (.ok (Frame.Close cf)))
        = none) :=
  ⟨fun _ => rfl, fun _ => rfl, fun _ => rfl, fun _ => rfl, fun _ => rfl,
   fun _ => rfl, fun _ => rfl, fun _ => rfl, fun _ => rfl, fun _ => rfl⟩

/-- C7 counterexample: constructing the controller without a probe
interval schedules probing with the 5-second default instead of
disabling it, and an explicit interval of 0 is accepted as-is rather
than rejected. -/
theorem probe_interval_counterexample :
    (WebSocketController.new "ws://example.com" 3 none).maintain_connection ≠ none ∧
    (WebSocketController.new "ws://example.com" 3 none).maintain_connection = some 5 ∧
    (WebSocketController.new "ws://example.com" 3 (some 0)).ping_interval = 0 ∧
    (WebSocketController.new "ws://example.com" 3 (some 0)).maintain_connection
      = some 0 :=
  ⟨by simp [WebSocketController.new, WebSocketController.maintain_connection], rfl, rfl, rfl⟩

/-- C7 amended: `WebSocketController::new` performs no validation of the
probe interval: absence enables probing with a 5-second default
(`ping_interval.unwrap_or(5)`), and any explicit value — 0 included — is
stored and used as the probe period by `maintain_connection`. -/
theorem probe_interval_semantics (url : String) (retries : Nat) (po : Option Nat) :
    (WebSocketController.new url retries po).ping_interval = po.getD 5 ∧
    (WebSocketController.new url retries po).maintain_connection = some (po.getD 5) ∧
    (WebSocketController.new url retries (some 0)).ping_interval = 0 :=
  ⟨rfl, rfl, rfl⟩

/-- `WebSocketClient::send_message` (connection.rs lines 133-145):
returns unit; outcomes are only logged.  `ser` models the
`MessageHandler::serialize` result for the message, `write` models
`ws_stream.send` on the serialized bytes; the result pairs the value
returned to the caller with the log lines emitted. -/
def WebSocketClient.send_message (ser : Except String (List Nat))
    (write : List Nat → Except String Unit) : Unit × List String :=
  match ser with
  | .ok serialized_data =>
    match write serialized_data with
    | .ok _ => ((), ["Sent message"])
    | .error e => ((), ["Failed to send message: " ++ e])
  | .error e => ((), ["Failed to serialize message: " ++ e])

/-- `WebSocketController::send_message` (controller.rs lines 148-155):
`ws_stream.send(Message::Binary(message.to_vec())).await?` — any write
failure propagates to the caller via `?`. -/
def WebSocketController.send_message (write : List Nat → Except String Unit)
    (message : List Nat) : Except String Unit :=
  match write message with
  | .ok _ => .ok ()
  | .error e => .error e

/-- C8 counterexample: a failing write inside
`WebSocketClient::send_message` is only logged; the caller receives the
same unit value as on a successful write, so the failure is not
surfaced. -/
theorem client_send_error_discarded :
    WebSocketClient.send_message (.ok [104, 105]) (fun _ => .error "broken pipe")
      = ((), ["Failed to send message: broken pipe"]) ∧
    (WebSocketClient.send_message (.ok [104, 105]) (fun _ => .error "broken pipe")).1
      = (WebSocketClient.send_message (.ok [104, 105]) (fun _ => .ok ())).1 :=
  ⟨rfl, rfl⟩

/-- C8 amended: `WebSocketController::send_message` surfaces every write
failure to the caller through its `Result`, but
`WebSocketClient::send_message` returns unit unconditionally and only
logs serialization and write failures, discarding them. -/
theorem send_error_propagation (write : List Nat → Except String Unit)
    (message : List Nat) :
    WebSocketController.send_message write message = write message ∧
    (∀ ser, (WebSocketClient.send_message ser write).1 = ()) ∧
    (∀ e, WebSocketClient.send_message (.error e) write
        = ((), ["Failed to serialize message: " ++ e])) ∧
    (∀ e, write message = .error e →
        WebSocketClient.send_message (.ok message) write
          = ((), ["Failed to send message: " ++ e])) := by
  refine ⟨?_, fun _ => rfl, fun _ => rfl, fun e he => ?_⟩
  · rw [WebSocketController.send_message]
    cases h : write message with
    | ok u => rfl
    | error e => rfl
  · rw [WebSocketClient.send_message, he]

/-- Send-error propagation witnessed with a broken-pipe write: the
controller surfaces the error, the client only logs it. -/
theorem send_error_propagation_witness :
    WebSocketController.send_message (fun _ => Except.error "broken pipe") [104]
      = Except.error "broken pipe" ∧
    WebSocketClient.send_message (.ok [104]) (fun _ => Except.error "broken pipe")
      = ((), ["Failed to send message: broken pipe"]) :=
  ⟨(send_error_propagation (fun _ => Except.error "broken pipe") [104]).1,
   (send_error_propagation (fun _ => Except.error "broken pipe") [104]).2.2.2
     "broken pipe" rfl⟩

/-- Outcome of calling a Rust function that may panic: either a panic
with its message, or a normal return. -/
inductive RustOutcome (α : Type) where
  | panicked (msg : String) : RustOutcome α
  | returned (r : Except String α) : RustOutcome α
deriving Repr

/-- `WebSocketClient::connect` (connection.rs lines 118-124):
`Url::parse(&self.url).expect("Invalid WebSocket URL")` panics when the
URL does not parse, then `connect_async(url).await?` attempts the
network connection.  `parse` models `Url::parse` (`none` is a parse
error) and `net` models `connect_async` on the parsed URL. -/
def WebSocketClient.connect (parse : String → Option String)
    (net : String → Except String Unit) (c : WebSocketClient) : RustOutcome Unit :=
  match parse c.url with
  | none => .panicked "Invalid WebSocket URL"
  | some u => .returned (net u)

/-- C9: for every URL string rejected by `Url::parse` and every retries
value, `WebSocketClient::connect` panics with the `expect` message
`"Invalid WebSocket URL"` instead of returning a connect error — the
function is not total over arbitrary address strings. -/
theorem connect_panics_on_invalid_url (parse : String → Option String)
    (net : String → Except String Unit) (url : String) (retries : Nat)
    (h : parse url = none) :
    WebSocketClient.connect parse net (WebSocketClient.new url retries)
      = .panicked "Invalid WebSocket URL" := by
  rw [WebSocketClient.connect]
  simp [WebSocketClient.new, h]

/-- Panic on an unparseable URL witnessed with a parser that rejects
everything and a zero retry budget. -/
theorem connect_panics_on_invalid_url_witness :
    WebSocketClient.connect (fun _ => none) (fun _ => Except.ok ())
        (WebSocketClient.new "not a url" 0) = .panicked "Invalid WebSocket URL" :=
  connect_panics_on_invalid_url (fun _ => none) (fun _ => Except.ok ()) "not a url" 0 rfl
